import Mathlib

/-!
Formal model of the moviecp media pipeline (movie-move repository).

The development shallowly embeds the pure logic of the Python sources:

* `moviecp/core/version_detector.py`  — version resolution for filenames,
* `moviecp/core/file_copier.py`       — verified copy with retry/backoff,
* `moviecp/watcher/validator.py`      — stability validation,
* `moviecp/watcher/processor.py`      — ingestion of validated files,
* `moviecp/core/movie_manager.py`     — the approve/reject orchestrator.

External effects (the filesystem, the database session, the `mnamer`
subprocess, `difflib.SequenceMatcher`) are modelled by explicit state
values and oracle functions passed as parameters; machine behaviour that
the Python code treats as a black box (e.g. the similarity ratio) stays a
parameter and is never fixed by the model.
-/

namespace MovieCP

/-! ### Python string primitives

Python strings are modelled as Lean `String`s; the handful of library
operations the sources use (`os.path.splitext`, `str.strip`, `str.lower`,
`str.startswith`, `str.endswith`, `os.path.basename`, `pathlib.Path.suffix`,
`str(int)`) are re-implemented on the underlying character lists. -/

/-- Model of Python `str.lower` (ASCII case folding, as used on filenames). -/
def pyLower (s : String) : String := ⟨s.data.map Char.toLower⟩

/-- Model of Python `str.strip()` with no argument: remove leading and
trailing whitespace. -/
def pyStrip (s : String) : String :=
  ⟨((s.data.dropWhile Char.isWhitespace).reverse.dropWhile Char.isWhitespace).reverse⟩

/-- Model of Python `os.path.splitext` for plain filenames (no directory
separators): split at the last dot, except that a filename whose every
character before that dot is itself a dot has no extension. -/
def splitext (s : String) : String × String :=
  match s.data.reverse.dropWhile (fun c => c != '.') with
  | [] => (s, "")
  | _ :: stemRev =>
    if stemRev.any (fun c => c != '.') then
      (⟨stemRev.reverse⟩, ⟨'.' :: (s.data.reverse.takeWhile (fun c => c != '.')).reverse⟩)
    else (s, "")

/-- Model of Python `os.path.basename`: the part after the last `/`. -/
def basename (s : String) : String :=
  ⟨(s.data.reverse.takeWhile (fun c => c != '/')).reverse⟩

/-- Model of `pathlib.Path.suffix`: the last dot-separated part of the
basename, provided the dot is neither the first nor the last character. -/
def pathSuffix (filePath : String) : String :=
  let r := (basename filePath).data.reverse
  match r.dropWhile (fun c => c != '.') with
  | [] => ""
  | _ :: stemRev =>
    if stemRev.isEmpty || (r.takeWhile (fun c => c != '.')).isEmpty then ""
    else ⟨'.' :: (r.takeWhile (fun c => c != '.')).reverse⟩

/-- Model of Python `s.startswith(p)`. -/
def strStartsWith (s p : String) : Bool := decide (p.data <+: s.data)

/-- Model of Python `s.endswith(p)`. -/
def strEndsWith (s p : String) : Bool := decide (p.data <:+ s.data)

/-- Model of Python slicing `s[n:]`. -/
def pyDropLeft (s : String) (n : Nat) : String := ⟨s.data.drop n⟩

/-- Model of Python slicing `s[:-n]`. -/
def pyDropRight (s : String) (n : Nat) : String := ⟨s.data.take (s.data.length - n)⟩

/-- Value of a decimal digit string, as computed by Python `int` on the
digits captured by a regex group. -/
def digitsToNat (cs : List Char) : Nat :=
  cs.foldl (fun a c => 10 * a + (c.toNat - 48)) 0

/-- Fuel-driven rendering of the decimal digits of a natural number,
most significant first, prepended to an accumulator. -/
def natToCharsAux : Nat → Nat → List Char → List Char
  | 0, _, acc => acc
  | fuel + 1, n, acc =>
    if n = 0 then acc else natToCharsAux fuel (n / 10) (Nat.digitChar (n % 10) :: acc)

/-- Model of Python `str(n)` for a natural number `n`. -/
def natToChars (n : Nat) : List Char :=
  if n = 0 then ['0'] else natToCharsAux n n []

/-- Model of Python `str(n)` as a Lean `String`. -/
def natToStr (n : Nat) : String := ⟨natToChars n⟩

/-! ### Version detector (`moviecp/core/version_detector.py`)

The configured suffix template is the default `format` value of
`VersionDetectionConfig` (a literal dot, a literal `v`, then the integer),
which is the template every claim about the component refers to.  The
compiled regular expression therefore matches a dot, a `v`, and a maximal
nonempty digit run; `re.search` takes the leftmost such match.  The
`difflib.SequenceMatcher.ratio` library call is an oracle parameter. -/

/-- Head match of the compiled version-suffix pattern at the start of a
character list: a dot, a `v`, and at least one digit; the captured group is
the maximal digit run (the regex quantifier is greedy). -/
def versionAt : List Char → Option Nat
  | a :: b :: c :: rest =>
    if a = '.' ∧ b = 'v' ∧ c.isDigit then
      some (digitsToNat (c :: rest.takeWhile Char.isDigit))
    else none
  | _ => none

/-- Model of `re.search` for the version-suffix pattern: try the pattern at
each position from the left, returning the first captured number. -/
def scanVersion : List Char → Option Nat
  | [] => none
  | x :: l =>
    match versionAt (x :: l) with
    | some v => some v
    | none => scanVersion l

/-- `VersionDetector._extract_version_number`: the number captured by the
leftmost version-suffix match, or 1 when there is no match. -/
def extract_version_number (filename : String) : Nat :=
  match scanVersion filename.data with
  | some v => v
  | none => 1

/-- `VersionDetector._add_version_suffix`: split off the extension and place
the rendered suffix between the stem and the extension. -/
def add_version_suffix (filename : String) (version : Nat) : String :=
  (splitext filename).1 ++ ".v" ++ natToStr version ++ (splitext filename).2

/-- `re.sub(pattern + "$", "", name)` for the version-suffix pattern: remove
a trailing dot-`v`-digits run when the digits reach the end of the name. -/
def stripVersionSuffix (name : List Char) : List Char :=
  match name.reverse.takeWhile Char.isDigit, name.reverse.dropWhile Char.isDigit with
  | _ :: _, 'v' :: '.' :: stemRev => stemRev.reverse
  | _, _ => name

/-- `VersionDetector._get_base_name`: drop the extension, strip one trailing
version suffix, and strip surrounding whitespace. -/
def get_base_name (filename : String) : String :=
  pyStrip ⟨stripVersionSuffix (splitext filename).1.data⟩

/-- `VersionDetectionConfig` (the suffix template is fixed to its default
value in this model, see above). -/
structure VersionDetectionConfig where
  enabled : Bool
  check_similar : Bool
  similarity_threshold : ℚ
deriving DecidableEq

/-- `VersionDetector._find_matches`: an existing file matches when the base
names agree case-insensitively, or, with the similarity feature enabled,
when the similarity ratio reaches the threshold.  `sim` is the
`SequenceMatcher.ratio` oracle applied to the two base names. -/
def find_matches (cfg : VersionDetectionConfig) (sim : String → String → ℚ)
    (filename : String) (existing : List String) : List String :=
  existing.filter (fun e =>
    if pyLower (get_base_name filename) = pyLower (get_base_name e) then true
    else cfg.check_similar && decide (cfg.similarity_threshold ≤ sim (get_base_name filename) (get_base_name e)))

/-- `VersionDetector._get_highest_version`: the maximum extracted version
number over the matches, starting from 0. -/
def get_highest_version (matchList : List String) : Nat :=
  matchList.foldl (fun h m => max h (extract_version_number m)) 0

/-- `VersionDetector.detect_version`, taking the destination listing
directly (the Python code reads it from the directory, with read failures
yielding an empty listing). -/
def detect_version (cfg : VersionDetectionConfig) (sim : String → String → ℚ)
    (filename : String) (existing : List String) : String × Nat :=
  if cfg.enabled = false then (filename, 1)
  else
    if (find_matches cfg sim filename existing).isEmpty then (filename, 1)
    else
      (add_version_suffix filename (get_highest_version (find_matches cfg sim filename existing) + 1),
       get_highest_version (find_matches cfg sim filename existing) + 1)

/-! ### Decimal rendering facts -/

lemma digitChar_toNat : ∀ d, d < 10 → (Nat.digitChar d).toNat = 48 + d := by decide

lemma digitChar_isDigit : ∀ d, d < 10 → (Nat.digitChar d).isDigit = true := by decide

lemma natToCharsAux_eq : ∀ (fuel n : Nat) (acc : List Char), n ≤ fuel →
    natToCharsAux fuel n acc = ((Nat.digits 10 n).reverse.map Nat.digitChar) ++ acc := by
  intro fuel
  induction fuel with
  | zero =>
    intro n acc h
    obtain rfl := Nat.le_zero.mp h
    simp [natToCharsAux]
  | succ f ih =>
    intro n acc h
    by_cases hn : n = 0
    · subst hn; simp [natToCharsAux]
    · have hdiv : n / 10 ≤ f := by
        have : n / 10 < n := Nat.div_lt_self (Nat.pos_of_ne_zero hn) (by norm_num)
        omega
      rw [natToCharsAux, if_neg hn, ih (n / 10) _ hdiv,
        Nat.digits_def' (by norm_num : (1:ℕ) < 10) (Nat.pos_of_ne_zero hn)]
      simp

lemma natToChars_eq (n : Nat) (hn : n ≠ 0) :
    natToChars n = (Nat.digits 10 n).reverse.map Nat.digitChar := by
  simp [natToChars, hn, natToCharsAux_eq n n [] (le_refl n)]

lemma foldl_map_digitChar (L : List Nat) (a : Nat) (h : ∀ d ∈ L, d < 10) :
    (L.map Nat.digitChar).foldl (fun acc c => 10 * acc + (c.toNat - 48)) a
      = L.foldl (fun acc d => 10 * acc + d) a := by
  induction L generalizing a with
  | nil => rfl
  | cons d T ih =>
    simp only [List.map_cons, List.foldl_cons]
    rw [digitChar_toNat d (h d (by simp))]
    have hd : 48 + d - 48 = d := by omega
    rw [hd, ih _ (fun x hx => h x (by simp [hx]))]

lemma foldl_reverse_ofDigits (L : List Nat) (a : Nat) :
    L.reverse.foldl (fun acc d => 10 * acc + d) a = a * 10 ^ L.length + Nat.ofDigits 10 L := by
  induction L generalizing a with
  | nil => simp
  | cons d T ih =>
    simp only [List.reverse_cons, List.foldl_append, List.foldl_cons, List.foldl_nil, ih,
      List.length_cons, Nat.ofDigits_cons]
    ring

lemma digitsToNat_natToChars (n : Nat) : digitsToNat (natToChars n) = n := by
  by_cases hn : n = 0
  · subst hn; rfl
  · rw [natToChars_eq n hn]
    unfold digitsToNat
    rw [foldl_map_digitChar _ _ (fun d hd => by
      exact Nat.digits_lt_base (by norm_num) (List.mem_reverse.mp hd))]
    rw [foldl_reverse_ofDigits]
    simp [Nat.ofDigits_digits]

lemma natToChars_ne_nil (n : Nat) : natToChars n ≠ [] := by
  by_cases hn : n = 0
  · subst hn; simp [natToChars]
  · rw [natToChars_eq n hn]
    simp [hn, Nat.digits_ne_nil_iff_ne_zero]

lemma natToChars_all_digits (n : Nat) : ∀ c ∈ natToChars n, c.isDigit = true := by
  by_cases hn : n = 0
  · subst hn
    intro c hc
    simp [natToChars] at hc
    subst hc
    decide
  · rw [natToChars_eq n hn]
    intro c hc
    simp only [List.mem_map, List.mem_reverse] at hc
    obtain ⟨d, hd, rfl⟩ := hc
    exact digitChar_isDigit d (Nat.digits_lt_base (by norm_num) hd)

/-! ### Scanning facts for the version-suffix pattern -/

lemma versionAt_cons3 (a b c : Char) (r : List Char) :
    versionAt (a :: b :: c :: r) =
      if a = '.' ∧ b = 'v' ∧ c.isDigit then some (digitsToNat (c :: r.takeWhile Char.isDigit))
      else none := rfl

lemma versionAt_pair (a b : Char) : versionAt [a, b] = none := rfl

lemma scanVersion_cons (x : Char) (l : List Char) :
    scanVersion (x :: l) =
      match versionAt (x :: l) with
      | some v => some v
      | none => scanVersion l := rfl

lemma scanVersion_cons_of_none (x : Char) (l : List Char)
    (h : versionAt (x :: l) = none) : scanVersion (x :: l) = scanVersion l := by
  rw [scanVersion_cons, h]

lemma versionAt_none_of_scanVersion_none (x : Char) (l : List Char)
    (h : scanVersion (x :: l) = none) : versionAt (x :: l) = none := by
  rcases hv : versionAt (x :: l) with _ | v
  · rfl
  · rw [scanVersion_cons, hv] at h
    exact absurd h (by simp)

lemma scanVersion_tail_of_none (x : Char) (l : List Char)
    (h : scanVersion (x :: l) = none) : scanVersion l = none := by
  rw [← scanVersion_cons_of_none x l (versionAt_none_of_scanVersion_none x l h)]
  exact h

lemma takeWhile_append_of_all {p : Char → Bool} (l1 l2 : List Char)
    (h : ∀ a ∈ l1, p a = true) : (l1 ++ l2).takeWhile p = l1 ++ l2.takeWhile p := by
  induction l1 with
  | nil => simp
  | cons x t ih =>
    simp only [List.cons_append, List.takeWhile_cons]
    rw [h x (by simp)]
    simp [ih (fun a ha => h a (by simp [ha]))]

lemma scanVersion_boundary (V : Nat) (ext : List Char)
    (hext : ext = [] ∨ ∃ t, ext = '.' :: t) :
    scanVersion ('.' :: 'v' :: (natToChars V ++ ext)) = some V := by
  rcases hd : natToChars V with _ | ⟨d, ds⟩
  · exact absurd hd (natToChars_ne_nil V)
  · have hdig : ∀ c ∈ natToChars V, c.isDigit = true := natToChars_all_digits V
    rw [hd] at hdig
    have hdd : d.isDigit = true := hdig d (by simp)
    have hds : ∀ c ∈ ds, c.isDigit = true := fun c hc => hdig c (by simp [hc])
    show scanVersion ('.' :: 'v' :: d :: (ds ++ ext)) = some V
    rw [scanVersion_cons, versionAt_cons3, if_pos ⟨rfl, rfl, hdd⟩]
    have htw : (ds ++ ext).takeWhile Char.isDigit = ds := by
      rw [takeWhile_append_of_all ds ext hds]
      rcases hext with rfl | ⟨t, rfl⟩
      · simp
      · simp [List.takeWhile_cons]
    rw [htw]
    have : (d :: ds) = natToChars V := hd.symm
    rw [this, digitsToNat_natToChars]

lemma versionAt_append_none (x : Char) (tl s2 : List Char)
    (h : versionAt (x :: tl) = none) :
    versionAt ((x :: tl) ++ ('.' :: s2)) = none := by
  rcases tl with _ | ⟨b, tl2⟩
  · rcases s2 with _ | ⟨c, r⟩
    · exact versionAt_pair x '.'
    · rw [show (x :: []) ++ ('.' :: c :: r) = x :: '.' :: c :: r from rfl, versionAt_cons3,
        if_neg]
      intro hcon
      exact absurd hcon.2.1 (by decide)
  · rcases tl2 with _ | ⟨c, r⟩
    · rw [show (x :: [b]) ++ ('.' :: s2) = x :: b :: '.' :: s2 from rfl, versionAt_cons3,
        if_neg]
      intro hcon
      exact absurd hcon.2.2 (by decide)
    · rw [show (x :: b :: c :: r) ++ ('.' :: s2) = x :: b :: c :: (r ++ '.' :: s2) from rfl,
        versionAt_cons3]
      rw [versionAt_cons3] at h
      by_cases hcon : (x = '.' ∧ b = 'v' ∧ c.isDigit)
      · rw [if_pos hcon] at h
        exact absurd h (by simp)
      · rw [if_neg hcon]

lemma scanVersion_through (name : List Char) (V : Nat) (ext : List Char)
    (hname : scanVersion name = none) (hext : ext = [] ∨ ∃ t, ext = '.' :: t) :
    scanVersion (name ++ ('.' :: 'v' :: (natToChars V ++ ext))) = some V := by
  induction name with
  | nil => simpa using scanVersion_boundary V ext hext
  | cons x tl ih =>
    have hAt : versionAt (x :: tl) = none := versionAt_none_of_scanVersion_none x tl hname
    have htl : scanVersion tl = none := scanVersion_tail_of_none x tl hname
    have hAt2 : versionAt ((x :: tl) ++ ('.' :: ('v' :: (natToChars V ++ ext)))) = none :=
      versionAt_append_none x tl _ hAt
    rw [List.cons_append]
    rw [scanVersion_cons_of_none _ _ (by rw [← List.cons_append]; exact hAt2)]
    exact ih htl

lemma data_append (s t : String) : (s ++ t).data = s.data ++ t.data := by
  cases s
  cases t
  rfl

lemma splitext_snd_shape (s : String) :
    (splitext s).2.data = [] ∨ ∃ t, (splitext s).2.data = '.' :: t := by
  unfold splitext
  rcases h : s.data.reverse.dropWhile (fun c => c != '.') with _ | ⟨c, stemRev⟩
  · left; rfl
  · by_cases hany : (stemRev.any fun c => c != '.') = true
    · right
      simp only [hany, if_true]
      exact ⟨_, rfl⟩
    · left
      simp only [if_neg hany]

/-! ### Claims about the version detector -/

/-- C5 counterexample: the round-trip fails as universally stated.  For the
base name `a.v2.mkv` and version 3, the suffixed name is `a.v2.v3.mkv`, and
extraction returns the leftmost suffix match, 2, not 3. -/
theorem C5_version_roundtrip_counterexample :
    extract_version_number (add_version_suffix "a.v2.mkv" 3) = 2
    ∧ ¬ extract_version_number (add_version_suffix "a.v2.mkv" 3) = 3 := by
  constructor
  · rfl
  · decide

/-- C5 (amended): for every base name `B` whose stem contains no occurrence
of the version-suffix pattern, and every version `V ≥ 1`, extracting the
version number from the filename obtained by adding the version suffix for
`V` to `B` returns `V`. -/
theorem C5_version_roundtrip (B : String) (V : Nat) (hV : 1 ≤ V)
    (hB : scanVersion (splitext B).1.data = none) :
    extract_version_number (add_version_suffix B V) = V := by
  unfold extract_version_number add_version_suffix
  have hdata : ((splitext B).1 ++ ".v" ++ natToStr V ++ (splitext B).2).data
      = (splitext B).1.data ++ ('.' :: 'v' :: (natToChars V ++ (splitext B).2.data)) := by
    simp only [data_append, List.append_assoc]
    rfl
  rw [hdata, scanVersion_through _ V _ hB (splitext_snd_shape B)]

/-- Witness for C5: the round-trip at base name `Movie (2020).mkv` and
version 7. -/
theorem C5_version_roundtrip_witness :
    (1 ≤ 7 ∧ scanVersion (splitext "Movie (2020).mkv").1.data = none)
    ∧ extract_version_number (add_version_suffix "Movie (2020).mkv" 7) = 7 :=
  ⟨⟨by norm_num, by rfl⟩, C5_version_roundtrip "Movie (2020).mkv" 7 (by norm_num) (by rfl)⟩

/-- C6: with similarity matching enabled at threshold 9/10, resolution of
candidate `Movie (2020).mkv` against the listing `[Movie (2020).mkv]`
yields `(Movie (2020).v2.mkv, 2)`; an empty destination listing, or one
with zero matches, yields the candidate unchanged with version 1. -/
theorem C6_version_resolution :
    (∀ sim : String → String → ℚ,
      detect_version ⟨true, true, 9/10⟩ sim "Movie (2020).mkv" ["Movie (2020).mkv"]
        = ("Movie (2020).v2.mkv", 2))
    ∧ (∀ (cfg : VersionDetectionConfig) (sim : String → String → ℚ) (c : String),
        detect_version cfg sim c [] = (c, 1))
    ∧ (∀ (cfg : VersionDetectionConfig) (sim : String → String → ℚ) (c : String)
        (existing : List String), find_matches cfg sim c existing = [] →
          detect_version cfg sim c existing = (c, 1)) := by
  refine ⟨fun sim => ?_, fun cfg sim c => ?_, fun cfg sim c existing h => ?_⟩
  · have hfm : find_matches ⟨true, true, 9/10⟩ sim "Movie (2020).mkv" ["Movie (2020).mkv"]
        = ["Movie (2020).mkv"] := rfl
    unfold detect_version
    rw [hfm]
    exact rfl
  · unfold detect_version
    by_cases he : cfg.enabled = false
    · simp [he]
    · simp [he, find_matches]
  · unfold detect_version
    by_cases he : cfg.enabled = false
    · simp [he]
    · simp [he, h]

/-- Witness for C6: a listing with zero matches (similarity disabled,
different base names) yields the candidate unchanged with version 1. -/
theorem C6_version_resolution_witness :
    find_matches ⟨true, false, 9/10⟩ (fun _ _ => 0) "Zebra.mkv" ["Movie.mkv"] = []
    ∧ detect_version ⟨true, false, 9/10⟩ (fun _ _ => 0) "Zebra.mkv" ["Movie.mkv"]
        = ("Zebra.mkv", 1) :=
  ⟨by rfl, C6_version_resolution.2.2 _ _ _ _ (by rfl)⟩

/-- C9: for every candidate filename and destination listing, the resolver
returns a version number at least 1, and the returned filename is either
the candidate unchanged or the candidate with the rendered version suffix
inserted between its stem and its extension. -/
theorem C9_resolver_invariants (cfg : VersionDetectionConfig) (sim : String → String → ℚ)
    (filename : String) (existing : List String) :
    1 ≤ (detect_version cfg sim filename existing).2
    ∧ ((detect_version cfg sim filename existing).1 = filename
       ∨ (detect_version cfg sim filename existing).1
          = (splitext filename).1 ++ ".v"
            ++ natToStr (detect_version cfg sim filename existing).2
            ++ (splitext filename).2) := by
  unfold detect_version
  by_cases he : cfg.enabled = false
  · rw [if_pos he]
    exact ⟨le_refl 1, Or.inl rfl⟩
  · rw [if_neg he]
    by_cases hm : (find_matches cfg sim filename existing).isEmpty = true
    · rw [if_pos hm]
      exact ⟨le_refl 1, Or.inl rfl⟩
    · rw [if_neg hm]
      exact ⟨Nat.succ_le_succ (Nat.zero_le _), Or.inr rfl⟩

/-! ### File copier (`moviecp/core/file_copier.py`)

The destination directory is modelled as the list of filenames present in
it.  One copy attempt is summarised by an oracle value: the streaming step
may raise mid-copy (leaving a partial temporary file), the size
verification may fail (raising `FileCopyError`), or the attempt succeeds.
`os.remove` and `os.rename` within the modelled directory succeed;
`is_mount_accessible` is an oracle boolean. -/

/-- Contents of one directory: the filenames present in it. -/
structure FS where
  files : List String
deriving DecidableEq

/-- Model of `os.path.exists` inside the modelled directory. -/
def FS.pathExists (fs : FS) (n : String) : Bool := decide (n ∈ fs.files)

/-- Creating (or truncating) a file: ensure the name is present. -/
def FS.write (fs : FS) (n : String) : FS :=
  if n ∈ fs.files then fs else ⟨n :: fs.files⟩

/-- Model of `os.remove`. -/
def FS.removeFile (fs : FS) (n : String) : FS :=
  ⟨fs.files.filter (fun m => decide (¬ m = n))⟩

/-- Model of `os.rename` within one directory: the source name disappears
and the target name is (over)written. -/
def FS.rename (fs : FS) (a b : String) : FS := (fs.removeFile a).write b

/-- Outcome of one copy attempt: the streaming copy raises mid-write, the
size verification fails, or the attempt succeeds. -/
inductive AttemptOutcome
  | streamError
  | verifyFail
  | ok
deriving DecidableEq

/-- `NetworkShareConfig` (the fields `copy_file` reads). -/
structure NetworkShareConfig where
  mount_path : String
  target_folder : String
  verify_mount : Bool
deriving DecidableEq

/-- Result of `FileCopier.copy_file`: the returned destination path, a
`FileCopyError`, or a `NetworkShareError`. -/
inductive CopyResult
  | success (destPath : String)
  | copyError
  | shareError
deriving DecidableEq

/-- Observable trace of one `copy_file` call: its result, the destination
directory afterwards, the backoff sleeps performed (in seconds), and how
many copy attempts were made. -/
structure CopyTrace where
  result : CopyResult
  fs : FS
  sleeps : List Nat
  attemptsMade : Nat
deriving DecidableEq

/-- Model of `os.path.join` for a relative second component. -/
def pathJoin (a b : String) : String := a ++ "/" ++ b
/-- The retry loop of `copy_file` (`for attempt in range(max_retries)`),
with `remaining` the number of loop iterations left.  Every attempt first
creates the temporary file (opening it for writing); when the attempt
raises (stream failure or failed verification) the temporary file is
removed if present, and the loop either re-raises (on the last attempt) or
sleeps `2 ^ attempt` seconds and retries. -/
def copyLoop (outcome : Nat → AttemptOutcome) (temp destPath final : String) :
    Nat → Nat → FS → List Nat → CopyTrace
  | 0, attempt, fs, sleeps => ⟨.copyError, fs, sleeps, attempt⟩
  | remaining + 1, attempt, fs, sleeps =>
    if outcome attempt = AttemptOutcome.ok then
      ⟨.success destPath, (fs.write temp).rename temp final, sleeps, attempt + 1⟩
    else
      if remaining = 0 then
        ⟨.copyError,
          (if (fs.write temp).pathExists temp
            then (fs.write temp).removeFile temp else fs.write temp),
          sleeps, attempt + 1⟩
      else
        copyLoop outcome temp destPath final remaining (attempt + 1)
          (if (fs.write temp).pathExists temp
            then (fs.write temp).removeFile temp else fs.write temp)
          (sleeps ++ [2 ^ attempt])

/-- `FileCopier.copy_file`: verify the mount when configured (a failure is
a `NetworkShareError` raised before anything is written), then run up to 3
copy attempts on the temporary name, publishing by rename on success. -/
def copy_file (cfg : NetworkShareConfig) (outcome : Nat → AttemptOutcome)
    (mountAccessible : Bool) (filename : String) (fs : FS) : CopyTrace :=
  if cfg.verify_mount && !mountAccessible then ⟨.shareError, fs, [], 0⟩
  else
    copyLoop outcome (filename ++ ".tmp")
      (pathJoin (pathJoin cfg.mount_path cfg.target_folder) filename) filename 3 0 fs []

/-! ### Facts about the copy loop -/

lemma FS.mem_write (fs : FS) (n m : String) :
    m ∈ (fs.write n).files ↔ m = n ∨ m ∈ fs.files := by
  unfold FS.write
  by_cases h : n ∈ fs.files
  · rw [if_pos h]
    constructor
    · exact fun hm => Or.inr hm
    · rintro (rfl | hm)
      · exact h
      · exact hm
  · rw [if_neg h]
    simp [List.mem_cons]

lemma FS.mem_removeFile (fs : FS) (n m : String) :
    m ∈ (fs.removeFile n).files ↔ m ∈ fs.files ∧ ¬ m = n := by
  unfold FS.removeFile
  simp [List.mem_filter]

lemma FS.pathExists_write_self (fs : FS) (n : String) :
    (fs.write n).pathExists n = true := by
  unfold FS.pathExists
  simp [FS.mem_write]

lemma copyLoop_temp_gone (outcome : Nat → AttemptOutcome) (temp destPath final : String)
    (hne : ¬ temp = final) :
    ∀ (remaining attempt : Nat) (fs : FS) (sleeps : List Nat), temp ∉ fs.files →
      temp ∉ (copyLoop outcome temp destPath final remaining attempt fs sleeps).fs.files := by
  intro remaining
  induction remaining with
  | zero => intro attempt fs sleeps h; exact h
  | succ r ih =>
    intro attempt fs sleeps h
    rw [copyLoop]
    by_cases ho : outcome attempt = AttemptOutcome.ok
    · rw [if_pos ho]
      intro hmem
      rcases (FS.mem_write _ final temp).mp hmem with heq | hmem2
      · exact hne heq
      · exact ((FS.mem_removeFile _ temp temp).mp hmem2).2 rfl
    · rw [if_neg ho, if_pos (FS.pathExists_write_self fs temp)]
      have hgone : temp ∉ ((fs.write temp).removeFile temp).files := by
        intro hmem
        exact ((FS.mem_removeFile _ temp temp).mp hmem).2 rfl
      by_cases hr : r = 0
      · rw [if_pos hr]
        exact hgone
      · rw [if_neg hr]
        exact ih (attempt + 1) _ _ hgone

lemma copyLoop_final_gone (outcome : Nat → AttemptOutcome) (temp destPath final : String)
    (hfail : ∀ i, ¬ outcome i = AttemptOutcome.ok) (hne : ¬ temp = final) :
    ∀ (remaining attempt : Nat) (fs : FS) (sleeps : List Nat), final ∉ fs.files →
      final ∉ (copyLoop outcome temp destPath final remaining attempt fs sleeps).fs.files
      ∧ (copyLoop outcome temp destPath final remaining attempt fs sleeps).result
          = CopyResult.copyError := by
  intro remaining
  induction remaining with
  | zero => intro attempt fs sleeps h; exact ⟨h, rfl⟩
  | succ r ih =>
    intro attempt fs sleeps h
    rw [copyLoop]
    rw [if_neg (hfail attempt), if_pos (FS.pathExists_write_self fs temp)]
    have hstep : final ∉ ((fs.write temp).removeFile temp).files := by
      intro hmem
      rcases (FS.mem_removeFile _ temp final).mp hmem with ⟨hmem2, _⟩
      rcases (FS.mem_write fs temp final).mp hmem2 with heq | hmem3
      · exact hne heq.symm
      · exact h hmem3
    by_cases hr : r = 0
    · rw [if_pos hr]
      exact ⟨hstep, rfl⟩
    · rw [if_neg hr]
      exact ih (attempt + 1) _ _ hstep

lemma copyLoop_schedule (outcome : Nat → AttemptOutcome) (temp destPath final : String) :
    ∀ (remaining attempt : Nat) (fs : FS) (sleeps : List Nat),
      (copyLoop outcome temp destPath final remaining attempt fs sleeps).attemptsMade
          ≤ attempt + remaining
      ∧ (1 ≤ remaining → attempt + 1
          ≤ (copyLoop outcome temp destPath final remaining attempt fs sleeps).attemptsMade)
      ∧ (copyLoop outcome temp destPath final remaining attempt fs sleeps).sleeps
          = sleeps ++ (List.range'
              attempt
              ((copyLoop outcome temp destPath final remaining attempt fs sleeps).attemptsMade
                - 1 - attempt)).map (fun k => 2 ^ k) := by
  intro remaining
  induction remaining with
  | zero =>
    intro attempt fs sleeps
    refine ⟨le_refl _, by omega, ?_⟩
    have h0 : attempt - 1 - attempt = 0 := by omega
    simp [copyLoop, h0]
  | succ r ih =>
    intro attempt fs sleeps
    rw [copyLoop]
    by_cases ho : outcome attempt = AttemptOutcome.ok
    · rw [if_pos ho]
      dsimp only
      refine ⟨by omega, fun _ => by omega, ?_⟩
      have h0 : attempt + 1 - 1 - attempt = 0 := by omega
      rw [h0]
      simp
    · rw [if_neg ho, if_pos (FS.pathExists_write_self fs temp)]
      by_cases hr : r = 0
      · rw [if_pos hr]
        dsimp only
        refine ⟨by omega, fun _ => by omega, ?_⟩
        have h0 : attempt + 1 - 1 - attempt = 0 := by omega
        rw [h0]
        simp
      · rw [if_neg hr]
        obtain ⟨h1, h2, h3⟩ :=
          ih (attempt + 1) ((fs.write temp).removeFile temp) (sleeps ++ [2 ^ attempt])
        have h2' := h2 (by omega)
        refine ⟨by omega, fun _ => by omega, ?_⟩
        rw [h3, List.append_assoc]
        congr 1
        have hlen : (copyLoop outcome temp destPath final r (attempt + 1)
            ((fs.write temp).removeFile temp) (sleeps ++ [2 ^ attempt])).attemptsMade
              - 1 - attempt
            = ((copyLoop outcome temp destPath final r (attempt + 1)
                ((fs.write temp).removeFile temp) (sleeps ++ [2 ^ attempt])).attemptsMade
                  - 1 - (attempt + 1)) + 1 := by
          omega
        rw [hlen, List.range'_succ, List.map_cons]
        rfl

lemma copyLoop_temp_gone_pos (outcome : Nat → AttemptOutcome) (temp destPath final : String)
    (hne : ¬ temp = final) :
    ∀ (remaining attempt : Nat) (fs : FS) (sleeps : List Nat), 1 ≤ remaining →
      temp ∉ (copyLoop outcome temp destPath final remaining attempt fs sleeps).fs.files := by
  intro remaining attempt fs sleeps hrem
  rcases remaining with _ | r
  · omega
  · rw [copyLoop]
    by_cases ho : outcome attempt = AttemptOutcome.ok
    · rw [if_pos ho]
      intro hmem
      rcases (FS.mem_write _ final temp).mp hmem with heq | hmem2
      · exact hne heq
      · exact ((FS.mem_removeFile _ temp temp).mp hmem2).2 rfl
    · rw [if_neg ho, if_pos (FS.pathExists_write_self fs temp)]
      have hgone : temp ∉ ((fs.write temp).removeFile temp).files := by
        intro hmem
        exact ((FS.mem_removeFile _ temp temp).mp hmem).2 rfl
      by_cases hr : r = 0
      · rw [if_pos hr]
        exact hgone
      · rw [if_neg hr]
        exact copyLoop_temp_gone outcome temp destPath final hne r (attempt + 1) _ _ hgone

lemma temp_ne_final (filename : String) : ¬ (filename ++ ".tmp") = filename := by
  intro h
  have hlen := congrArg (fun s => s.data.length) h
  simp only [data_append, List.length_append] at hlen
  have h4 : (".tmp" : String).data.length = 4 := rfl
  rw [h4] at hlen
  omega

/-! ### Claims about the transfer engine -/

/-- C1: whatever the attempt outcomes, `copy_file` leaves no temporary
artifact (destination filename plus temporary suffix) in the destination
directory; and when verification fails on every attempt (with the mount
reachable), the directory afterwards contains neither the final filename
nor the temporary artifact and the result is the transfer-failure
condition (`FileCopyError`). -/
theorem C1_no_partial_artifacts (cfg : NetworkShareConfig) (outcome : Nat → AttemptOutcome)
    (mountAccessible : Bool) (filename : String) (fs : FS)
    (htemp : (filename ++ ".tmp") ∉ fs.files) :
    (filename ++ ".tmp") ∉ (copy_file cfg outcome mountAccessible filename fs).fs.files
    ∧ ((∀ i, outcome i = AttemptOutcome.verifyFail) →
        (cfg.verify_mount && !mountAccessible) = false → filename ∉ fs.files →
          filename ∉ (copy_file cfg outcome mountAccessible filename fs).fs.files
          ∧ (copy_file cfg outcome mountAccessible filename fs).result
              = CopyResult.copyError) := by
  constructor
  · unfold copy_file
    by_cases hm : (cfg.verify_mount && !mountAccessible) = true
    · rw [if_pos hm]
      exact htemp
    · rw [if_neg hm]
      exact copyLoop_temp_gone outcome _ _ filename (temp_ne_final filename) 3 0 fs [] htemp
  · intro hfail hm hfin
    unfold copy_file
    rw [if_neg (by rw [hm]; exact Bool.false_ne_true)]
    exact copyLoop_final_gone outcome _ _ filename
      (fun i h => by rw [hfail i] at h; exact AttemptOutcome.noConfusion h)
      (temp_ne_final filename) 3 0 fs [] hfin

/-- Witness for C1: an all-verification-fail run against an empty
destination directory. -/
theorem C1_no_partial_artifacts_witness :
    ("Movie.mkv" ++ ".tmp") ∉ (FS.mk []).files
    ∧ (("Movie.mkv" ++ ".tmp")
          ∉ (copy_file ⟨"/mnt", "Movies", true⟩ (fun _ => AttemptOutcome.verifyFail)
              true "Movie.mkv" ⟨[]⟩).fs.files
        ∧ ((∀ i : Nat, (fun _ => AttemptOutcome.verifyFail) i = AttemptOutcome.verifyFail) →
            ((⟨"/mnt", "Movies", true⟩ : NetworkShareConfig).verify_mount && !true) = false →
            "Movie.mkv" ∉ (FS.mk []).files →
              "Movie.mkv" ∉ (copy_file ⟨"/mnt", "Movies", true⟩
                  (fun _ => AttemptOutcome.verifyFail) true "Movie.mkv" ⟨[]⟩).fs.files
              ∧ (copy_file ⟨"/mnt", "Movies", true⟩ (fun _ => AttemptOutcome.verifyFail)
                  true "Movie.mkv" ⟨[]⟩).result = CopyResult.copyError)) :=
  ⟨by simp,
    C1_no_partial_artifacts ⟨"/mnt", "Movies", true⟩ (fun _ => AttemptOutcome.verifyFail)
      true "Movie.mkv" ⟨[]⟩ (by simp)⟩

/-- C8 counterexample: in a run in which all three attempts fail, the
backoff sleeps performed are 1s and 2s only; the third attempt re-raises
without sleeping, so the claimed 1s, 2s, 4s schedule does not occur. -/
theorem C8_backoff_counterexample :
    (copy_file ⟨"/mnt", "Movies", true⟩ (fun _ => AttemptOutcome.verifyFail)
        true "Movie.mkv" ⟨[]⟩).sleeps = [1, 2]
    ∧ ¬ (copy_file ⟨"/mnt", "Movies", true⟩ (fun _ => AttemptOutcome.verifyFail)
        true "Movie.mkv" ⟨[]⟩).sleeps = [1, 2, 4] := by
  constructor
  · rfl
  · decide

/-- C8 (amended): `copy_file` makes at most 3 attempts; the sleeps form the
exponential schedule `2 ^ k` for the failed non-final attempts (1s after
the first failed attempt, 2s after the second; the final attempt re-raises
without sleeping); and entering any retry iteration, the temporary file is
no longer present when the loop returns. -/
theorem C8_retry_policy (cfg : NetworkShareConfig) (outcome : Nat → AttemptOutcome)
    (mountAccessible : Bool) (filename : String) (fs : FS) :
    (copy_file cfg outcome mountAccessible filename fs).attemptsMade ≤ 3
    ∧ (copy_file cfg outcome mountAccessible filename fs).sleeps
        = (List.range ((copy_file cfg outcome mountAccessible filename fs).attemptsMade - 1)).map
            (fun k => 2 ^ k)
    ∧ ∀ (remaining attempt : Nat) (fs2 : FS) (sleeps : List Nat), 1 ≤ remaining →
        (filename ++ ".tmp")
          ∉ (copyLoop outcome (filename ++ ".tmp")
              (pathJoin (pathJoin cfg.mount_path cfg.target_folder) filename) filename
              remaining attempt fs2 sleeps).fs.files := by
  refine ⟨?_, ?_, fun remaining attempt fs2 sleeps hrem =>
    copyLoop_temp_gone_pos outcome _ _ filename (temp_ne_final filename)
      remaining attempt fs2 sleeps hrem⟩
  · unfold copy_file
    by_cases hm : (cfg.verify_mount && !mountAccessible) = true
    · rw [if_pos hm]
      norm_num
    · rw [if_neg hm]
      obtain ⟨h1, _, _⟩ := copyLoop_schedule outcome (filename ++ ".tmp")
        (pathJoin (pathJoin cfg.mount_path cfg.target_folder) filename) filename 3 0 fs []
      omega
  · unfold copy_file
    by_cases hm : (cfg.verify_mount && !mountAccessible) = true
    · rw [if_pos hm]
      simp
    · rw [if_neg hm]
      obtain ⟨_, _, h3⟩ := copyLoop_schedule outcome (filename ++ ".tmp")
        (pathJoin (pathJoin cfg.mount_path cfg.target_folder) filename) filename 3 0 fs []
      rw [h3, List.range_eq_range']
      simp

/-- Witness for C8: the loop entered with the temporary artifact already
present removes it by the time it returns. -/
theorem C8_retry_policy_witness :
    1 ≤ 3
    ∧ ("Movie.mkv" ++ ".tmp")
        ∉ (copyLoop (fun _ => AttemptOutcome.verifyFail) ("Movie.mkv" ++ ".tmp")
            (pathJoin (pathJoin "/mnt" "Movies") "Movie.mkv") "Movie.mkv"
            3 0 ⟨["Movie.mkv" ++ ".tmp"]⟩ []).fs.files :=
  ⟨by norm_num,
    (C8_retry_policy ⟨"/mnt", "Movies", true⟩ (fun _ => AttemptOutcome.verifyFail)
      true "Movie.mkv" ⟨[]⟩).2.2 3 0 ⟨["Movie.mkv" ++ ".tmp"]⟩ [] (by norm_num)⟩

/-! ### Stability validator (`moviecp/watcher/validator.py`)

The validated file's behaviour over time is an oracle: the filesystem
calls made by `validate_file` happen in a fixed order, and each is
indexed by its position in that order (the existence check at instant 0,
the regular-file check at instant 1, the size reading at instant 2, the
two stability samples at instants 3 and 4, the configured wait falling
between them).  `os.path.getsize` on an absent file raises; inside
`_is_file_stable` that exception is caught and yields `False`, while in
`validate_file` it is caught by the outer handler, which raises
`FileValidationError`. -/

/-- Time-indexed view of one path: presence, regular-file status, and size
at each filesystem call. -/
structure FileView where
  presentAt : Nat → Bool
  isFileAt : Nat → Bool
  sizeAt : Nat → Nat

/-- `WatcherConfig` (the fields the validator reads;
`min_file_size_bytes` is `min_file_size_mb * 1024 * 1024`, precomputed in
`FileValidator.__init__`). -/
structure WatcherConfig where
  min_file_size_bytes : Nat
  stable_time_seconds : Nat
  supported_extensions : List String
  exclude_patterns : List String
deriving DecidableEq

/-- `FileValidator._matches_exclude_pattern`: first-match wins over the
patterns, each tested by the leading-star, then trailing-star, then exact
equality rules. -/
def matches_exclude_pattern (patterns : List String) (filePath : String) : Bool :=
  patterns.any (fun pattern =>
    if strStartsWith pattern "*" && strEndsWith (basename filePath) (pyDropLeft pattern 1) then
      true
    else if strEndsWith pattern "*"
        && strStartsWith (basename filePath) (pyDropRight pattern 1) then
      true
    else pattern == basename filePath)

/-- `is_video_file` from `moviecp/utils/helpers.py`: the lowered path
suffix is among the lowered supported extensions. -/
def is_video_file (filePath : String) (supported : List String) : Bool :=
  decide (pyLower (pathSuffix filePath) ∈ supported.map pyLower)

/-- Result of `FileValidator.validate_file`: a boolean verdict, or a
raised `FileValidationError`. -/
inductive ValidateResult
  | ok (valid : Bool)
  | error
deriving DecidableEq

/-- `FileValidator._is_file_stable`, sampling at instants `t` and `t + 1`:
two equal size samples mean stable; a `getsize` failure (the file vanished)
is caught inside and yields `False`. -/
def is_file_stable (v : FileView) (t : Nat) : Bool :=
  if v.presentAt t = false then false
  else if v.presentAt (t + 1) = false then false
  else decide (v.sizeAt t = v.sizeAt (t + 1))

/-- `FileValidator.validate_file`: the checks in source order, each
short-circuiting to "not valid"; a `getsize` failure at the size check is
caught by the outer handler and re-raised as `FileValidationError`. -/
def validate_file (cfg : WatcherConfig) (v : FileView) (filePath : String) : ValidateResult :=
  if v.presentAt 0 = false then .ok false
  else if (v.presentAt 1 && v.isFileAt 1) = false then .ok false
  else if matches_exclude_pattern cfg.exclude_patterns filePath then .ok false
  else if is_video_file filePath cfg.supported_extensions = false then .ok false
  else if v.presentAt 2 = false then .error
  else if v.sizeAt 2 < cfg.min_file_size_bytes then .ok false
  else .ok (is_file_stable v 3)

/-! ### Claims about the validator -/

/-- C7 counterexample: a path that passes the existence and type checks,
is not excluded, and has a supported extension, but vanishes between the
existence check and the size sampling, makes `validate_file` raise
`FileValidationError` instead of returning "not valid". -/
theorem C7_validator_counterexample :
    validate_file ⟨0, 30, [".mkv"], []⟩
      ⟨fun t => decide (t < 2), fun _ => true, fun _ => 1000000000⟩
      "movie.mkv" = ValidateResult.error := by
  rfl

/-- C7 (amended): every failing check, and a disappearance at either
stability sample, yields "not valid" without an error; but `validate_file`
raises exactly when the existence, regular-file, exclusion and extension
checks all pass and the file is absent at the size sampling. -/
theorem C7_validator_errors (cfg : WatcherConfig) (v : FileView) (filePath : String) :
    validate_file cfg v filePath = ValidateResult.error ↔
      (v.presentAt 0 = true ∧ (v.presentAt 1 && v.isFileAt 1) = true
        ∧ matches_exclude_pattern cfg.exclude_patterns filePath = false
        ∧ is_video_file filePath cfg.supported_extensions = true
        ∧ v.presentAt 2 = false) := by
  unfold validate_file
  by_cases h0 : v.presentAt 0 = false
  · rw [if_pos h0]
    simp [h0]
  · rw [if_neg h0]
    by_cases h1 : (v.presentAt 1 && v.isFileAt 1) = false
    · rw [if_pos h1]
      simp [h1]
    · rw [if_neg h1]
      by_cases h2 : matches_exclude_pattern cfg.exclude_patterns filePath = true
      · rw [if_pos h2]
        simp [h2]
      · rw [if_neg h2]
        by_cases h3 : is_video_file filePath cfg.supported_extensions = false
        · rw [if_pos h3]
          simp [h3]
        · rw [if_neg h3]
          by_cases h4 : v.presentAt 2 = false
          · rw [if_pos h4]
            simp_all
          · rw [if_neg h4]
            by_cases h5 : v.sizeAt 2 < cfg.min_file_size_bytes
            · rw [if_pos h5]
              simp_all
            · rw [if_neg h5]
              simp_all

/-- C10: with the exclusion list `["*"]`, the exclusion matcher accepts
every filename (the leading-star rule suffix-matches the empty remainder),
and validation returns "not valid" for every path, whatever its extension,
size or stability behaviour. -/
theorem C10_star_excludes_everything (cfg : WatcherConfig) (v : FileView) (filePath : String)
    (hpat : cfg.exclude_patterns = ["*"]) :
    (∀ anyPath : String, matches_exclude_pattern ["*"] anyPath = true)
    ∧ validate_file cfg v filePath = ValidateResult.ok false := by
  have hmatch : ∀ anyPath : String, matches_exclude_pattern ["*"] anyPath = true := by
    intro anyPath
    unfold matches_exclude_pattern
    simp only [List.any_cons, List.any_nil, Bool.or_false]
    have hc : (strStartsWith "*" "*"
        && strEndsWith (basename anyPath) (pyDropLeft "*" 1)) = true := by
      rw [Bool.and_eq_true]
      refine ⟨rfl, ?_⟩
      show decide ((("*" : String).data.drop 1) <:+ (basename anyPath).data) = true
      exact decide_eq_true List.nil_suffix
    rw [if_pos hc]
  refine ⟨hmatch, ?_⟩
  unfold validate_file
  by_cases h0 : v.presentAt 0 = false
  · rw [if_pos h0]
  · rw [if_neg h0]
    by_cases h1 : (v.presentAt 1 && v.isFileAt 1) = false
    · rw [if_pos h1]
    · rw [if_neg h1]
      rw [if_pos (by rw [hpat]; exact hmatch filePath)]

/-- Witness for C10: the concrete star-only configuration rejects a large,
stable, supported file. -/
theorem C10_star_excludes_everything_witness :
    (⟨0, 30, [".mkv"], ["*"]⟩ : WatcherConfig).exclude_patterns = ["*"]
    ∧ ((∀ anyPath : String, matches_exclude_pattern ["*"] anyPath = true)
        ∧ validate_file ⟨0, 30, [".mkv"], ["*"]⟩
            ⟨fun _ => true, fun _ => true, fun _ => 1000000000⟩
            "movie.mkv" = ValidateResult.ok false) :=
  ⟨rfl, C10_star_excludes_everything ⟨0, 30, [".mkv"], ["*"]⟩
    ⟨fun _ => true, fun _ => true, fun _ => 1000000000⟩ "movie.mkv" rfl⟩

/-! ### Record store (`moviecp/models.py`, `moviecp/database.py`)

The store is modelled as in-memory lists of records; each committed
transaction of the Python code is one pure update of this state.  Ids are
assigned from a running counter (the autoincrement primary key).
Timestamps are abstract naturals (`datetime.utcnow` is the oracle `now`);
the JSON metadata blob is an opaque string. -/

/-- `PendingMovie` (`models.py`).  The metadata blob column is declared
under the name `metadata` (line 28) — an attribute name the declarative
base itself reserves — and in particular the class declares no
`file_metadata` attribute. -/
structure PendingMovie where
  id : Nat
  original_path : String
  original_filename : String
  file_size : Nat
  detected_at : Nat
  status : String
  error_message : Option String
  metadata : Option String
deriving DecidableEq

/-- `ProcessedMovie`. -/
structure ProcessedMovie where
  original_path : String
  original_filename : String
  final_path : Option String
  final_filename : Option String
  file_size : Nat
  detected_at : Nat
  processed_at : Nat
  action : String
  version_number : Nat
  mnamer_output : Option String
  notes : Option String
deriving DecidableEq

/-- The record store: pending records, history records, next fresh id. -/
structure DB where
  pending : List PendingMovie
  processed : List ProcessedMovie
  nextId : Nat
deriving DecidableEq

/-- `session.query(PendingMovie).filter_by(id=movie_id).first()`. -/
def DB.findPendingById (db : DB) (movieId : Nat) : Option PendingMovie :=
  db.pending.find? (fun m => m.id == movieId)

/-- `session.query(PendingMovie).filter_by(original_path=path).first()`. -/
def DB.findPendingByPath (db : DB) (path : String) : Option PendingMovie :=
  db.pending.find? (fun m => m.original_path == path)

/-- Commit a status update of one pending record. -/
def DB.markStatus (db : DB) (movieId : Nat) (st : String) : DB :=
  { db with pending := db.pending.map (fun m =>
      if m.id = movieId then { m with status := st } else m) }

/-- Commit a failure: status `failed` plus the error message. -/
def DB.markFailed (db : DB) (movieId : Nat) (msg : String) : DB :=
  { db with pending := db.pending.map (fun m =>
      if m.id = movieId then { m with status := "failed", error_message := some msg } else m) }

/-- `session.delete(pending_movie)`. -/
def DB.deletePendingById (db : DB) (movieId : Nat) : DB :=
  { db with pending := db.pending.filter (fun m => decide (¬ m.id = movieId)) }

/-- `session.add(processed)`. -/
def DB.addProcessed (db : DB) (p : ProcessedMovie) : DB :=
  { db with processed := db.processed ++ [p] }

/-! ### Ingestion (`moviecp/watcher/processor.py`) -/

/-- The file-facts record produced by `FileValidator.get_file_info`. -/
structure FileInfo where
  path : String
  filename : String
  size : Nat
  extension : String
  modified_time : Nat
deriving DecidableEq

/-- Result of `FileProcessor.process_file`: the returned optional record
plus the store, or a raised `DatabaseError`. -/
inductive ProcessResult where
  | ok (inserted : Option PendingMovie) (db : DB)
  | dbError
deriving DecidableEq

/-- `FileProcessor.process_file`: a record with the same source path (any
status) makes the call a no-op returning nothing.  Otherwise the code
builds the metadata JSON and calls the `PendingMovie` constructor with the
keyword `file_metadata` — an attribute the model does not declare (its
blob column is named `metadata`, `models.py` line 28) — so the
constructor raises, and the generic handler (`except Exception`,
`processor.py` lines 75–77) turns that into a raised `DatabaseError`: no
record is ever inserted, and the aborted transaction leaves the store
unchanged. -/
def process_file (db : DB) (info : FileInfo) : ProcessResult :=
  match db.findPendingByPath info.path with
  | some _ => ProcessResult.ok none db
  | none => ProcessResult.dbError

/-! ### Orchestrator (`moviecp/core/movie_manager.py`)

The external renamer returns an optional new filename plus its raw output
(`None`, covering both a parse failure and a raised `MnamerError`, aborts
the approval); the transfer engine is the `copy_file` model above; error
message texts are abbreviated to stable tags. -/

/-- The oracles `approve_movie` consults: the renamer, the similarity
ratio, mount reachability, per-attempt copy outcomes, and the clock. -/
structure Env where
  rename : String → Option String × String
  sim : String → String → ℚ
  mountAccessible : Bool
  copyOutcome : Nat → AttemptOutcome
  now : Nat

/-- The structured result dictionary both transitions return. -/
structure OpResult where
  success : Bool
  error : Option String
  original_filename : Option String
  final_filename : Option String
  final_path : Option String
  version_number : Option Nat
deriving DecidableEq

/-- An unsuccessful result with its error tag. -/
def failureRes (msg : String) : OpResult := ⟨false, some msg, none, none, none, none⟩

/-- The successful approval result. -/
def approveSuccessRes (orig finalName finalPath : String) (v : Nat) : OpResult :=
  ⟨true, none, some orig, some finalName, some finalPath, some v⟩

/-- The successful rejection result. -/
def rejectSuccessRes (orig : String) : OpResult :=
  ⟨true, none, some orig, none, none, none⟩

/-- The manager configuration (the sections `approve_movie` reads). -/
structure ManagerConfig where
  network_share : NetworkShareConfig
  version_detection : VersionDetectionConfig
deriving DecidableEq

/-- Everything `approve_movie` returns or mutates: the structured result,
the record store, the destination directory, and the source directory. -/
structure ApproveOut where
  result : OpResult
  db : DB
  destFS : FS
  srcFS : FS
deriving DecidableEq

/-- Everything `reject_movie` returns or mutates. -/
structure RejectOut where
  result : OpResult
  db : DB
  srcFS : FS
deriving DecidableEq

/-- `MovieManager.approve_movie`: verify the record exists with status
`pending` (else fail without mutating anything); commit status
`processing`; run the renamer (failure marks the record failed); resolve
the version against the destination listing; run the transfer (failure
marks the record failed); on success add the approved history record and
delete the pending record in one commit, then optionally delete the
source file. -/
def approve_movie (cfg : ManagerConfig) (env : Env) (movieId : Nat) (deleteSource : Bool)
    (db : DB) (destFS srcFS : FS) : ApproveOut :=
  match db.findPendingById movieId with
  | none => ⟨failureRes "not found", db, destFS, srcFS⟩
  | some movie =>
    if ¬ movie.status = "pending" then ⟨failureRes "invalid state", db, destFS, srcFS⟩
    else
      match env.rename movie.original_path with
      | (none, _) =>
        ⟨failureRes "mnamer failed",
          (db.markStatus movieId "processing").markFailed movieId "mnamer failed",
          destFS, srcFS⟩
      | (some newFilename, out) =>
        match (copy_file cfg.network_share env.copyOutcome env.mountAccessible
            (detect_version cfg.version_detection env.sim newFilename destFS.files).1
            destFS).result with
        | CopyResult.success finalPath =>
          ⟨approveSuccessRes movie.original_filename
              (detect_version cfg.version_detection env.sim newFilename destFS.files).1
              finalPath
              (detect_version cfg.version_detection env.sim newFilename destFS.files).2,
            (match (db.markStatus movieId "processing").findPendingById movieId with
              | some pm =>
                (((db.markStatus movieId "processing").addProcessed
                  { original_path := pm.original_path,
                    original_filename := pm.original_filename,
                    final_path := some finalPath,
                    final_filename :=
                      some (detect_version cfg.version_detection env.sim newFilename destFS.files).1,
                    file_size := pm.file_size, detected_at := pm.detected_at,
                    processed_at := env.now, action := "approved",
                    version_number :=
                      (detect_version cfg.version_detection env.sim newFilename destFS.files).2,
                    mnamer_output := some out,
                    notes := none }).deletePendingById movieId)
              | none => db.markStatus movieId "processing"),
            (copy_file cfg.network_share env.copyOutcome env.mountAccessible
              (detect_version cfg.version_detection env.sim newFilename destFS.files).1
              destFS).fs,
            if deleteSource then srcFS.removeFile movie.original_path else srcFS⟩
        | CopyResult.copyError =>
          ⟨failureRes "copy failed",
            (db.markStatus movieId "processing").markFailed movieId "copy failed",
            (copy_file cfg.network_share env.copyOutcome env.mountAccessible
              (detect_version cfg.version_detection env.sim newFilename destFS.files).1
              destFS).fs,
            srcFS⟩
        | CopyResult.shareError =>
          ⟨failureRes "share not accessible",
            (db.markStatus movieId "processing").markFailed movieId "share not accessible",
            (copy_file cfg.network_share env.copyOutcome env.mountAccessible
              (detect_version cfg.version_detection env.sim newFilename destFS.files).1
              destFS).fs,
            srcFS⟩

/-- `MovieManager.reject_movie`: the record must exist (any status); add
the rejected history record and delete the pending record in one commit,
then optionally delete the source file. -/
def reject_movie (env : Env) (movieId : Nat) (deleteSource : Bool)
    (db : DB) (srcFS : FS) : RejectOut :=
  match db.findPendingById movieId with
  | none => ⟨failureRes "not found", db, srcFS⟩
  | some movie =>
    ⟨rejectSuccessRes movie.original_filename,
      ((db.addProcessed
        { original_path := movie.original_path,
          original_filename := movie.original_filename,
          final_path := none, final_filename := none,
          file_size := movie.file_size, detected_at := movie.detected_at,
          processed_at := env.now, action := "rejected", version_number := 1,
          mnamer_output := none, notes := some "Rejected by user" }).deletePendingById movieId),
      if deleteSource then srcFS.removeFile movie.original_path else srcFS⟩

/-! ### Facts about the record store and the orchestrator -/

lemma detect_version_pos (cfg : VersionDetectionConfig) (sim : String → String → ℚ)
    (filename : String) (existing : List String) :
    1 ≤ (detect_version cfg sim filename existing).2 := by
  unfold detect_version
  by_cases he : cfg.enabled = false
  · rw [if_pos he]
  · rw [if_neg he]
    by_cases hm : (find_matches cfg sim filename existing).isEmpty = true
    · rw [if_pos hm]
    · rw [if_neg hm]
      exact Nat.succ_le_succ (Nat.zero_le _)

lemma findPendingById_markStatus (db : DB) (i : Nat) (st : String) :
    (db.markStatus i st).findPendingById i
      = (db.findPendingById i).map (fun m => if m.id = i then { m with status := st } else m) := by
  unfold DB.markStatus DB.findPendingById
  rw [List.find?_map]
  congr 1
  congr 1
  funext m
  by_cases h : m.id = i
  · simp [h]
  · simp [h]

lemma findPendingById_markFailed (db : DB) (i : Nat) (msg : String) :
    (db.markFailed i msg).findPendingById i
      = (db.findPendingById i).map (fun m =>
          if m.id = i then { m with status := "failed", error_message := some msg } else m) := by
  unfold DB.markFailed DB.findPendingById
  rw [List.find?_map]
  congr 1
  congr 1
  funext m
  by_cases h : m.id = i
  · simp [h]
  · simp [h]

lemma findPendingById_delete (db : DB) (i : Nat) :
    (db.deletePendingById i).findPendingById i = none := by
  unfold DB.deletePendingById DB.findPendingById
  rw [List.find?_eq_none]
  intro m hm
  rcases List.mem_filter.mp hm with ⟨_, hdec⟩
  simp only [decide_eq_true_eq] at hdec
  simp [hdec]

lemma findPendingById_markStatus_of_find (db : DB) (i : Nat) (st : String) (m : PendingMovie)
    (hfind : db.findPendingById i = some m) (hid : m.id = i) :
    (db.markStatus i st).findPendingById i = some { m with status := st } := by
  rw [findPendingById_markStatus, hfind, Option.map_some', if_pos hid]

lemma findPendingById_markFailed_of_find (db : DB) (i : Nat) (st msg : String) (m : PendingMovie)
    (hfind : db.findPendingById i = some m) (hid : m.id = i) :
    ((db.markStatus i st).markFailed i msg).findPendingById i
      = some { m with status := "failed", error_message := some msg } := by
  rw [findPendingById_markFailed, findPendingById_markStatus_of_find db i st m hfind hid,
    Option.map_some']
  dsimp only
  rw [if_pos hid]

lemma findPendingById_id (db : DB) (i : Nat) (m : PendingMovie)
    (hfind : db.findPendingById i = some m) : m.id = i := by
  have h := List.find?_some hfind
  simpa using h

lemma approve_not_found (cfg : ManagerConfig) (env : Env) (movieId : Nat) (del : Bool)
    (db : DB) (destFS srcFS : FS) (h : db.findPendingById movieId = none) :
    approve_movie cfg env movieId del db destFS srcFS
      = ⟨failureRes "not found", db, destFS, srcFS⟩ := by
  unfold approve_movie
  rw [h]

lemma approve_invalid_state (cfg : ManagerConfig) (env : Env) (movieId : Nat) (del : Bool)
    (db : DB) (destFS srcFS : FS) (m : PendingMovie)
    (hfind : db.findPendingById movieId = some m) (hst : ¬ m.status = "pending") :
    approve_movie cfg env movieId del db destFS srcFS
      = ⟨failureRes "invalid state", db, destFS, srcFS⟩ := by
  unfold approve_movie
  rw [hfind]
  dsimp only
  rw [if_pos hst]

lemma approve_postStatus (cfg : ManagerConfig) (env : Env) (movieId : Nat) (del : Bool)
    (db : DB) (destFS srcFS : FS) (m : PendingMovie)
    (hfind : db.findPendingById movieId = some m) (hp : m.status = "pending") :
    (approve_movie cfg env movieId del db destFS srcFS).db.findPendingById movieId = none
    ∨ ∃ m2, (approve_movie cfg env movieId del db destFS srcFS).db.findPendingById movieId
          = some m2 ∧ m2.status = "failed" := by
  have hid : m.id = movieId := findPendingById_id db movieId m hfind
  unfold approve_movie
  rw [hfind]
  dsimp only
  rw [if_neg (fun hcon => hcon hp)]
  rcases hren : env.rename m.original_path with ⟨mn, out⟩
  rcases mn with _ | newFilename
  · dsimp only
    exact Or.inr ⟨_, findPendingById_markFailed_of_find db movieId "processing"
      "mnamer failed" m hfind hid, rfl⟩
  · dsimp only
    rcases hc : (copy_file cfg.network_share env.copyOutcome env.mountAccessible
        (detect_version cfg.version_detection env.sim newFilename destFS.files).1
        destFS).result with fp | _ | _
    · dsimp only
      rw [findPendingById_markStatus_of_find db movieId "processing" m hfind hid]
      dsimp only
      exact Or.inl (findPendingById_delete _ movieId)
    · dsimp only
      exact Or.inr ⟨_, findPendingById_markFailed_of_find db movieId "processing"
        "copy failed" m hfind hid, rfl⟩
    · dsimp only
      exact Or.inr ⟨_, findPendingById_markFailed_of_find db movieId "processing"
        "share not accessible" m hfind hid, rfl⟩

/-- The data-model invariant on terminal history records. -/
def recordOK (p : ProcessedMovie) : Prop :=
  (p.action = "approved" →
    ¬ p.final_path = none ∧ ¬ p.final_filename = none ∧ 1 ≤ p.version_number)
  ∧ (p.action = "rejected" → p.final_path = none ∧ p.final_filename = none)

/-! ### Claims about the orchestrator and ingestion -/

/-- C2: every history record created by an approval or a rejection
satisfies the terminal-record invariant: approved records carry a final
path, a final filename and a version number at least 1; rejected records
carry neither path nor filename. -/
theorem C2_terminal_record_invariant (cfg : ManagerConfig) (env : Env) (movieId : Nat)
    (del : Bool) (db : DB) (destFS srcFS : FS) :
    ((approve_movie cfg env movieId del db destFS srcFS).db.processed = db.processed
      ∨ ∃ p, (approve_movie cfg env movieId del db destFS srcFS).db.processed
            = db.processed ++ [p] ∧ recordOK p)
    ∧ ((reject_movie env movieId del db srcFS).db.processed = db.processed
      ∨ ∃ p, (reject_movie env movieId del db srcFS).db.processed
            = db.processed ++ [p] ∧ recordOK p) := by
  constructor
  · unfold approve_movie
    rcases hfind : db.findPendingById movieId with _ | m
    · exact Or.inl rfl
    · dsimp only
      by_cases hst : ¬ m.status = "pending"
      · rw [if_pos hst]
        exact Or.inl rfl
      · rw [if_neg hst]
        rcases hren : env.rename m.original_path with ⟨mn, out⟩
        rcases mn with _ | newFilename
        · exact Or.inl rfl
        · dsimp only
          rcases hc : (copy_file cfg.network_share env.copyOutcome env.mountAccessible
              (detect_version cfg.version_detection env.sim newFilename destFS.files).1
              destFS).result with fp | _ | _
          · dsimp only
            rcases hpm : (db.markStatus movieId "processing").findPendingById movieId
              with _ | pm
            · exact Or.inl rfl
            · dsimp only
              refine Or.inr ⟨_, rfl, ?_, ?_⟩
              · intro _
                exact ⟨by simp, by simp, detect_version_pos cfg.version_detection env.sim
                  newFilename destFS.files⟩
              · intro habs
                have hlit : ("approved" : String) = "rejected" := habs
                exact absurd hlit (by decide)
          · exact Or.inl rfl
          · exact Or.inl rfl
  · unfold reject_movie
    rcases hfind : db.findPendingById movieId with _ | m
    · exact Or.inl rfl
    · dsimp only
      refine Or.inr ⟨_, rfl, ?_, ?_⟩
      · intro habs
        have hlit : ("rejected" : String) = "approved" := habs
        exact absurd hlit (by decide)
      · intro _
        exact ⟨rfl, rfl⟩

/-- C3: approving a missing record, or a record not in status `pending`,
returns an unsuccessful result and mutates neither the record store nor
either directory; and once an approval of a pending record has run (its
first committed step sets status `processing`), a second approval of the
same id fails and changes nothing, so two approvals can never both
succeed. -/
theorem C3_approve_guard (cfg cfg2 : ManagerConfig) (env env2 : Env) (movieId : Nat)
    (del del2 : Bool) (db : DB) (destFS srcFS : FS) :
    (db.findPendingById movieId = none →
      approve_movie cfg env movieId del db destFS srcFS
        = ⟨failureRes "not found", db, destFS, srcFS⟩)
    ∧ (∀ m, db.findPendingById movieId = some m → ¬ m.status = "pending" →
        approve_movie cfg env movieId del db destFS srcFS
          = ⟨failureRes "invalid state", db, destFS, srcFS⟩)
    ∧ (∀ m, db.findPendingById movieId = some m → m.status = "pending" →
        (approve_movie cfg2 env2 movieId del2
            (approve_movie cfg env movieId del db destFS srcFS).db
            (approve_movie cfg env movieId del db destFS srcFS).destFS
            (approve_movie cfg env movieId del db destFS srcFS).srcFS).result.success = false
        ∧ (approve_movie cfg2 env2 movieId del2
            (approve_movie cfg env movieId del db destFS srcFS).db
            (approve_movie cfg env movieId del db destFS srcFS).destFS
            (approve_movie cfg env movieId del db destFS srcFS).srcFS).db
          = (approve_movie cfg env movieId del db destFS srcFS).db
        ∧ (approve_movie cfg2 env2 movieId del2
            (approve_movie cfg env movieId del db destFS srcFS).db
            (approve_movie cfg env movieId del db destFS srcFS).destFS
            (approve_movie cfg env movieId del db destFS srcFS).srcFS).destFS
          = (approve_movie cfg env movieId del db destFS srcFS).destFS
        ∧ (approve_movie cfg2 env2 movieId del2
            (approve_movie cfg env movieId del db destFS srcFS).db
            (approve_movie cfg env movieId del db destFS srcFS).destFS
            (approve_movie cfg env movieId del db destFS srcFS).srcFS).srcFS
          = (approve_movie cfg env movieId del db destFS srcFS).srcFS) := by
  refine ⟨fun h => approve_not_found cfg env movieId del db destFS srcFS h,
    fun m hfind hst => approve_invalid_state cfg env movieId del db destFS srcFS m hfind hst,
    fun m hfind hp => ?_⟩
  rcases approve_postStatus cfg env movieId del db destFS srcFS m hfind hp
    with hnone | ⟨m2, hm2, hst2⟩
  · rw [approve_not_found cfg2 env2 movieId del2 _ _ _ hnone]
    exact ⟨rfl, rfl, rfl, rfl⟩
  · rw [approve_invalid_state cfg2 env2 movieId del2 _ _ _ m2 hm2
      (by rw [hst2]; decide)]
    exact ⟨rfl, rfl, rfl, rfl⟩

/-- C4 (code bug): ingestion can never insert.  A record with the same
source path still resolves to a silent no-op (the duplicate check runs
before the constructor), but a fresh source path reaches the
`PendingMovie` constructor with the unknown keyword `file_metadata` and
raises `DatabaseError`; at the concrete failing input — an empty store and
a fresh validated file — the call errors instead of creating the one
pending record the claim requires, so every call either errors or returns
nothing with the store unchanged. -/
theorem C4_ingestion_never_inserts :
    process_file ⟨[], [], 0⟩ ⟨"/dl/a.mkv", "a.mkv", 700000000, ".mkv", 9⟩
      = ProcessResult.dbError
    ∧ (∀ (db : DB) (info : FileInfo) (m : PendingMovie),
        db.findPendingByPath info.path = some m →
          process_file db info = ProcessResult.ok none db)
    ∧ (∀ (db : DB) (info : FileInfo),
        process_file db info = ProcessResult.dbError
        ∨ process_file db info = ProcessResult.ok none db) := by
  refine ⟨rfl, fun db info m hfind => ?_, fun db info => ?_⟩
  · unfold process_file
    rw [hfind]
  · unfold process_file
    rcases hfind : db.findPendingByPath info.path with _ | m
    · exact Or.inl rfl
    · exact Or.inr rfl

/-- Witness for C4: a store already tracking the path absorbs
re-ingestion as a silent no-op. -/
theorem C4_ingestion_never_inserts_witness :
    (DB.mk [⟨1, "/dl/a.mkv", "a.mkv", 700000000, 0, "pending", none, none⟩] [] 2).findPendingByPath
        "/dl/a.mkv"
      = some ⟨1, "/dl/a.mkv", "a.mkv", 700000000, 0, "pending", none, none⟩
    ∧ process_file ⟨[⟨1, "/dl/a.mkv", "a.mkv", 700000000, 0, "pending", none, none⟩], [], 2⟩
        ⟨"/dl/a.mkv", "a.mkv", 700000000, ".mkv", 9⟩
      = ProcessResult.ok none
          ⟨[⟨1, "/dl/a.mkv", "a.mkv", 700000000, 0, "pending", none, none⟩], [], 2⟩ :=
  ⟨rfl, C4_ingestion_never_inserts.2.1
    ⟨[⟨1, "/dl/a.mkv", "a.mkv", 700000000, 0, "pending", none, none⟩], [], 2⟩
    ⟨"/dl/a.mkv", "a.mkv", 700000000, ".mkv", 9⟩
    ⟨1, "/dl/a.mkv", "a.mkv", 700000000, 0, "pending", none, none⟩ rfl⟩

/-- Witness for C3: a store holding one pending record; the first approval
succeeds end to end (the renamer and every copy attempt succeed), and a
second approval of the same id reports failure. -/
theorem C3_approve_guard_witness :
    (approve_movie ⟨⟨"/mnt", "Movies", true⟩, ⟨true, false, 9/10⟩⟩
        ⟨fun _ => (some "Movie (2020).mkv", "out"), fun _ _ => 0, true,
          fun _ => AttemptOutcome.ok, 5⟩ 1 false
        (approve_movie ⟨⟨"/mnt", "Movies", true⟩, ⟨true, false, 9/10⟩⟩
          ⟨fun _ => (some "Movie (2020).mkv", "out"), fun _ _ => 0, true,
            fun _ => AttemptOutcome.ok, 5⟩ 1 false
          ⟨[⟨1, "/dl/a.mkv", "a.mkv", 700000000, 0, "pending", none, none⟩], [], 2⟩
          ⟨[]⟩ ⟨["/dl/a.mkv"]⟩).db
        (approve_movie ⟨⟨"/mnt", "Movies", true⟩, ⟨true, false, 9/10⟩⟩
          ⟨fun _ => (some "Movie (2020).mkv", "out"), fun _ _ => 0, true,
            fun _ => AttemptOutcome.ok, 5⟩ 1 false
          ⟨[⟨1, "/dl/a.mkv", "a.mkv", 700000000, 0, "pending", none, none⟩], [], 2⟩
          ⟨[]⟩ ⟨["/dl/a.mkv"]⟩).destFS
        (approve_movie ⟨⟨"/mnt", "Movies", true⟩, ⟨true, false, 9/10⟩⟩
          ⟨fun _ => (some "Movie (2020).mkv", "out"), fun _ _ => 0, true,
            fun _ => AttemptOutcome.ok, 5⟩ 1 false
          ⟨[⟨1, "/dl/a.mkv", "a.mkv", 700000000, 0, "pending", none, none⟩], [], 2⟩
          ⟨[]⟩ ⟨["/dl/a.mkv"]⟩).srcFS).result.success = false :=
  ((C3_approve_guard ⟨⟨"/mnt", "Movies", true⟩, ⟨true, false, 9/10⟩⟩
      ⟨⟨"/mnt", "Movies", true⟩, ⟨true, false, 9/10⟩⟩
      ⟨fun _ => (some "Movie (2020).mkv", "out"), fun _ _ => 0, true,
        fun _ => AttemptOutcome.ok, 5⟩
      ⟨fun _ => (some "Movie (2020).mkv", "out"), fun _ _ => 0, true,
        fun _ => AttemptOutcome.ok, 5⟩ 1 false false
      ⟨[⟨1, "/dl/a.mkv", "a.mkv", 700000000, 0, "pending", none, none⟩], [], 2⟩
      ⟨[]⟩ ⟨["/dl/a.mkv"]⟩).2.2
    ⟨1, "/dl/a.mkv", "a.mkv", 700000000, 0, "pending", none, none⟩ rfl rfl).1

end MovieCP
